import Mathlib

/-!
Verification development for the graphrag-neo4j-deepresearch repository.

The repository ingests text into a Neo4j knowledge graph (chunking, embedding,
schema-constrained extraction, entity resolution, graph writes) and answers
questions through several retrieval strategies exposed by a small Flask
service.  This file gives a shallow embedding of the parts of the code that
the verified properties talk about: the HTTP handlers of `app.py`, the index
configuration constants, and executable models of the pipeline components
(extraction schema filter, entity resolver, graph writer upserts, vector /
hybrid / text-to-query retrieval) whose implementations live in the external
`neo4j_graphrag` library and are therefore modelled from the specification.
-/

namespace GraphRag

/-- Model of a JSON value as it appears in request and response bodies of the
Flask service in `src/app.py`: a string, an integer, or null. -/
inductive JVal where
  | str (s : String)
  | num (n : Int)
  | null
deriving DecidableEq

/-- Model of a JSON object body: an association list of fields. -/
abbrev Body := List (String × JVal)

/-- Field lookup in a JSON object body; the first binding wins. -/
def getField : Body → String → Option JVal
  | [], _ => none
  | (k, v) :: rest, key => if k = key then some v else getField rest key

/-- Abstraction of `rag.search(query_text, retriever_config)` from `app.py`:
given the query value and the top_k value it either returns an answer string
or fails with the message of the raised exception. -/
abbrev RagFn := JVal → JVal → Except String String

/-- Shallow embedding of the `POST /query` handler of `src/app.py`
(function `query`, lines 46-76).  A missing body or an empty JSON object is
reported as 400 "No data provided" (Python's `if not data`), a body without a
`query` field as 400 "No query provided"; a successful search produces a 200
body with `answer`, `query`, `top_k` and `status` "success"; a raised
exception produces a 500 body with `error` and `status` "error". -/
def query (rag : RagFn) (data : Option Body) : Nat × Body :=
  match data with
  | none => (400, [("error", JVal.str "No data provided")])
  | some d =>
    if d.isEmpty then (400, [("error", JVal.str "No data provided")])
    else
      match getField d "query" with
      | none => (400, [("error", JVal.str "No query provided")])
      | some qv =>
        let tk := (getField d "top_k").getD (JVal.num 5)
        match rag qv tk with
        | Except.ok ans =>
            (200, [("answer", JVal.str ans), ("query", qv), ("top_k", tk),
                   ("status", JVal.str "success")])
        | Except.error e =>
            (500, [("error", JVal.str e), ("status", JVal.str "error")])

/-- Shallow embedding of the `POST /webhook` handler of `src/app.py`
(function `webhook`, lines 78-102): the same validation as `query`, the search
always run with `top_k = 5`, and a success body that carries only `answer`,
`query` and `status`. -/
def webhook (rag : RagFn) (data : Option Body) : Nat × Body :=
  match data with
  | none => (400, [("error", JVal.str "No data provided")])
  | some d =>
    if d.isEmpty then (400, [("error", JVal.str "No data provided")])
    else
      match getField d "query" with
      | none => (400, [("error", JVal.str "No query provided")])
      | some qv =>
        match rag qv (JVal.num 5) with
        | Except.ok ans =>
            (200, [("answer", JVal.str ans), ("query", qv),
                   ("status", JVal.str "success")])
        | Except.error e =>
            (500, [("error", JVal.str e), ("status", JVal.str "error")])

/-- Force the `top_k` field of a request body to the integer 5, leaving an
absent or empty body unchanged (so that the missing-data check of the handlers
is not disturbed). -/
def forceTopK5 : Option Body → Option Body
  | none => none
  | some d => if d.isEmpty then some d else some (("top_k", JVal.num 5) :: d)

/-- Drop the `top_k` field from a response body. -/
def stripTopK (resp : Nat × Body) : Nat × Body :=
  (resp.1, resp.2.filter (fun p => p.1 ≠ "top_k"))

/-- Embedding model configured for query-time retrieval in `src/app.py`
line 25. -/
def appEmbedderModel : String := "text-embedding-3-large"

/-- Embedding model used by the example retrieval scripts, for example
`src/examples/retrieve/dune_similarity_search.py` line 107. -/
def retrievalExampleEmbedderModel : String := "text-embedding-ada-002"

/-- Constant `DIMENSION` from
`src/examples/database_operations/create_fulltext_index.py` line 16, the
dimension count with which the `dune_vector_search` vector index is
provisioned. -/
def DIMENSION : Nat := 1536

/-- Modelled from the spec: the Embedding Generator itself is the external
OpenAI provider and is absent from `src/`; the code only records a model
reference.  This table is the provider's published output dimension per model
reference appearing in the repository. -/
def openAIEmbeddingDim (model : String) : Option Nat :=
  if model = "text-embedding-ada-002" then some 1536
  else if model = "text-embedding-3-small" then some 1536
  else if model = "text-embedding-3-large" then some 3072
  else none

/-- Shallow embedding of `generate_vector_index_name` from
`src/examples/utils.py` lines 5-24: the body ignores all four parameters and
returns the fixed index name. -/
def generate_vector_index_name (label : String := "Chunk")
    (property_name : String := "embedding") (dimensions : Nat := 1536)
    (similarity : String := "cosine") : String :=
  "dune_vector_search"

/-- Candidate relation proposed by the extraction stage for one segment,
reduced to the data the schema check inspects: the subject entity type, the
relation type and the object entity type. -/
structure Relation where
  subjectType : String
  relationType : String
  objectType : String
deriving DecidableEq

/-- Constant `POTENTIAL_SCHEMA` from
`src/examples/build_graph/simple_kg_builder_from_pdf.py` lines 70-74: the
allowed (subjectType, relationType, objectType) triples of that ingestion
run. -/
def POTENTIAL_SCHEMA : List (String × String × String) :=
  [("Person", "SITUATED_AT", "Location"),
   ("Person", "INTERACTS", "Person"),
   ("Organization", "LED_BY", "Person")]

/-- Modelled from the spec: the schema check of the Extraction Engine (the
entity-relation extractor of the external `neo4j_graphrag` library, configured
with a potential schema by `create_kg_pipeline` in
`src/src/functions/kg_operations.py`, absent from `src/`).  With enforcement
on, each candidate relation is kept exactly when its type triple is in the
allowed set and dropped individually otherwise; with enforcement off every
candidate is kept. -/
def filterBySchema (enforce : Bool) (allowed : List (String × String × String))
    (cands : List Relation) : List Relation :=
  if enforce then
    cands.filter (fun r => (r.subjectType, r.relationType, r.objectType) ∈ allowed)
  else cands

/-- Entity mention as the resolver sees it: declared type, surface name and a
property map. -/
structure Entity where
  etype : String
  name : String
  props : List (String × String)
deriving DecidableEq

/-- Property lookup in a property map; the first binding wins. -/
def getProp : List (String × String) → String → Option String
  | [], _ => none
  | (k, v) :: rest, key => if k = key then some v else getProp rest key

/-- Merge of two property maps: a key already bound in the earlier map keeps
its earlier value, keys only bound later are appended. -/
def mergeProps (earlier later : List (String × String)) : List (String × String) :=
  earlier ++ later.filter (fun p => (getProp earlier p.1).isNone)

/-- Whitespace test for the key normalization. -/
def isWS (c : Char) : Bool := c = ' ' ∨ c = '\t' ∨ c = '\n' ∨ c = '\r'

/-- ASCII lower-casing of one character. -/
def lowChar (c : Char) : Char :=
  if 65 ≤ c.toNat ∧ c.toNat ≤ 90 then Char.ofNat (c.toNat + 32) else c

/-- Normalization applied to both components of the resolution key:
case-insensitive and insensitive to surrounding whitespace, exact otherwise
(no fuzzy matching). -/
def normStr (s : String) : String :=
  String.mk (((s.data.dropWhile isWS).reverse.dropWhile isWS).reverse.map lowChar)

/-- Resolution key of an entity mention: the normalized (type, name) pair. -/
def normKey (e : Entity) : String × String := (normStr e.etype, normStr e.name)

/-- Canonical entity for one resolution key: the first mention with that key
provides the stored type and name, and the property maps of all mentions
sharing the key are merged left to right with earlier values kept. -/
def canonOf (k : String × String) (l : List Entity) : Entity :=
  match l.filter (fun e => normKey e = k) with
  | [] => { etype := k.1, name := k.2, props := [] }
  | e :: es =>
      { etype := e.etype, name := e.name,
        props := es.foldl (fun acc f => mergeProps acc f.props) e.props }

/-- Modelled from the spec: the Entity Resolver (the exact-match resolver of
the external `neo4j_graphrag` library, configured in
`src/config_pipelines/process_all_splitters.py`, absent from `src/`): group
the mentions by resolution key and emit one canonical entity per key, in order
of first appearance. -/
def resolve (l : List Entity) : List Entity :=
  ((l.map normKey).dedup).map (fun k => canonOf k l)

/-- Property map of a stored graph node. -/
abbrev Props := List (String × String)

/-- Identifier of a stored relation: subject resolution key, relation type,
object resolution key. -/
abbrev RelId := (String × String) × String × (String × String)

/-- Modelled from the spec: the graph store as the Graph Writer sees it (the
Neo4j database behind the external library's writer, absent from `src/`):
entity nodes indexed by resolution key with a property map, and the set of
stored relations. -/
structure Store where
  ents : List ((String × String) × Props)
  rels : List RelId
deriving DecidableEq

/-- Resolution keys currently present in the store. -/
def Store.keys (s : Store) : List (String × String) := s.ents.map Prod.fst

/-- Modelled from the spec: upsert of one canonical entity — an entity whose
resolution key is already present merges property maps into the existing node
instead of creating a second one; a fresh key appends a node. -/
def writeEntity (s : Store) (k : String × String) (p : Props) : Store :=
  if k ∈ s.keys then
    { s with ents := s.ents.map (fun kv => if kv.1 = k then (kv.1, mergeProps kv.2 p) else kv) }
  else { s with ents := s.ents ++ [(k, p)] }

/-- Modelled from the spec: writing a relation that already exists between the
same two entities with the same type is a no-op. -/
def writeRelation (s : Store) (r : RelId) : Store :=
  if r ∈ s.rels then s else { s with rels := s.rels ++ [r] }

/-- Payload of one document as it reaches the Graph Writer after resolution:
its canonical entities and its rewritten relations. -/
structure DocPayload where
  ents : List ((String × String) × Props)
  rels : List RelId

/-- Modelled from the spec: the write stage driven by `process_text_to_kg`
(`src/src/functions/kg_operations.py` lines 72-105) persists one document by
upserting its canonical entities and then its rewritten relations in order. -/
def ingest (s : Store) (d : DocPayload) : Store :=
  (d.rels.foldl writeRelation
    (d.ents.foldl (fun acc kp => writeEntity acc kp.1 kp.2) s))

/-- Number of entity nodes in the store. -/
def entityCount (s : Store) : Nat := s.ents.length

/-- Number of stored relations. -/
def relationCount (s : Store) : Nat := s.rels.length

/-- Error taxonomy of the Text-to-Query strategy. -/
inductive T2CErr where
  | queryGenerationError
  | unsafeQueryError
deriving DecidableEq

/-- Generated graph-query-language statement, abstracted as its token list. -/
abbrev Stmt := List String

/-- Modelled from the spec: the write/delete keywords whose presence makes a
generated statement mutating. -/
def writeKeywords : List String :=
  ["CREATE", "MERGE", "DELETE", "DETACH", "SET", "REMOVE", "DROP"]

/-- ASCII upper-casing of one character. -/
def upChar (c : Char) : Char :=
  if 97 ≤ c.toNat ∧ c.toNat ≤ 122 then Char.ofNat (c.toNat - 32) else c

/-- ASCII upper-casing of one token. -/
def upStr (s : String) : String := String.mk (s.data.map upChar)

/-- A statement is mutating when any of its tokens is a write/delete keyword,
compared case-insensitively. -/
def isMutating (stmt : Stmt) : Bool :=
  stmt.any (fun tok => writeKeywords.contains (upStr tok))

/-- Configuration of the Text-to-Query strategy over an abstract database
type: the language model's generated statement per query, the syntax
validator, and the read-only record retrieval of the store. -/
structure T2CConfig (Db : Type) where
  gen : String → Stmt
  syntaxOk : Stmt → Bool
  run : Db → Stmt → List (List (String × String))

/-- Modelled from the spec: one Text-to-Query search (the text-to-Cypher
retriever of the external `neo4j_graphrag` library, used by
`src/examples/retrieve/dune_text2cypher_search.py`, absent from `src/`): a
syntactically invalid generated statement fails with `QueryGenerationError`, a
mutating one is rejected with `UnsafeQueryError` before touching the store,
and otherwise the statement is run read-only.  The second component is the
database state after the call. -/
def text2cypher {Db : Type} (cfg : T2CConfig Db) (db : Db) (q : String) :
    Except T2CErr (List (List (String × String))) × Db :=
  let stmt := cfg.gen q
  if cfg.syntaxOk stmt = false then (Except.error T2CErr.queryGenerationError, db)
  else if isMutating stmt then (Except.error T2CErr.unsafeQueryError, db)
  else (Except.ok (cfg.run db stmt), db)

/-- The query loop of `src/examples/retrieve/dune_text2cypher_search.py`
lines 154-205: each query is attempted exactly once, a failure is recorded and
the loop continues with the next query; no retry. -/
def processQueries {Db : Type} (cfg : T2CConfig Db) (db : Db) (qs : List String) :
    List (String × Except T2CErr (List (List (String × String)))) :=
  qs.map (fun q => (q, (text2cypher cfg db q).1))

/-- Zero-based rank of an id in a ranked result list. -/
def rankOf : List String → String → Option Nat
  | [], _ => none
  | x :: rest, target => if x = target then some 0 else (rankOf rest target).map (· + 1)

/-- Reciprocal-rank contribution of one ranked list: an id at zero-based rank
i contributes 1 / (c + i + 1) and an absent id contributes 0; the fusion
constant c is left as a parameter. -/
def rrfScore (c : ℚ) (l : List String) (target : String) : ℚ :=
  match rankOf l target with
  | some i => 1 / (c + i + 1)
  | none => 0

/-- Combined reciprocal-rank-fusion score of a segment id over the vector and
fulltext result lists. -/
def fusedScore (c : ℚ) (vec ft : List String) (target : String) : ℚ :=
  rrfScore c vec target + rrfScore c ft target

/-- Modelled from the spec: the Hybrid strategy (the hybrid retriever of the
external library, used by `src/examples/retrieve/dune_hybrid_search.py`,
absent from `src/`): run the vector and fulltext searches independently,
de-duplicate by segment id, order by combined reciprocal-rank score descending
and truncate to top_k. -/
def hybridFuse (c : ℚ) (top_k : Nat) (vec ft : List String) : List String :=
  (((vec ++ ft).dedup).insertionSort
    (fun a b => fusedScore c vec ft b ≤ fusedScore c vec ft a)).take top_k

/-- Text segment as stored in the graph (the `TextChunk` nodes with id, text,
ordinal index and embedding described in
`src/examples/retrieve/dune_text2cypher_search.py` lines 48-67), embeddings
modelled as rational vectors. -/
structure Segment where
  sid : String
  index : Nat
  text : String
  embedding : List ℚ
deriving DecidableEq

/-- Dot product of two vectors (truncating at the shorter one). -/
def dot : List ℚ → List ℚ → ℚ
  | [], _ => 0
  | _, [] => 0
  | a :: xs, b :: ys => a * b + dot xs ys

/-- Decidable comparison of two cosine scores that share the query factor:
`cosLeB da A db B` decides `da / sqrt A ≤ db / sqrt B` for positive `A` and
`B` by sign analysis and cross-multiplied squares. -/
def cosLeB (da A db B : ℚ) : Bool :=
  if da < 0 then
    if db < 0 then decide (db * db * A ≤ da * da * B) else true
  else
    if db < 0 then false else decide (da * da * B ≤ db * db * A)

/-- Segment carrying a nonzero embedding: per the spec, segments whose
embedding is missing or null are excluded from vector retrieval. -/
abbrev VSeg := { s : Segment // 0 < dot s.embedding s.embedding }

/-- Boolean ranking comparator of the Vector strategy for one query embedding:
the higher cosine score comes first, equal scores are tied by ascending
segment ordinal. -/
def vrankB (q : List ℚ) (a b : VSeg) : Bool :=
  let da := dot q a.1.embedding
  let A := dot a.1.embedding a.1.embedding
  let db := dot q b.1.embedding
  let B := dot b.1.embedding b.1.embedding
  if cosLeB da A db B && cosLeB db B da A then decide (a.1.index ≤ b.1.index)
  else cosLeB db B da A

/-- Ranking relation of the Vector strategy. -/
def vrank (q : List ℚ) (a b : VSeg) : Prop := vrankB q a b = true

instance vrankDecidable (q : List ℚ) : DecidableRel (vrank q) :=
  fun a b => inferInstanceAs (Decidable (vrankB q a b = true))

/-- Modelled from the spec: the Vector strategy (the vector retriever of the
external library over the Neo4j vector index, used by
`src/examples/retrieve/dune_similarity_search.py` and `src/app.py`, absent
from `src/`): rank all candidate segments by cosine similarity to the query
embedding, descending, ties broken by ascending ordinal, and return the first
top_k. -/
def vectorRetrieve (q : List ℚ) (top_k : Nat) (segs : List VSeg) : List VSeg :=
  (segs.insertionSort (vrank q)).take top_k

/-- Cosine similarity of a query embedding and a segment embedding, as a real
number. -/
noncomputable def cosineSim (q v : List ℚ) : ℝ :=
  ((dot q v : ℚ) : ℝ) /
    (Real.sqrt ((dot q q : ℚ) : ℝ) * Real.sqrt ((dot v v : ℚ) : ℝ))

/-- Query-side-normalized ranking key: the cosine similarity times the norm of
the query embedding.  Comparisons of this key agree with comparisons of the
cosine similarity whenever the query embedding is nonzero. -/
noncomputable def rankKey (q : List ℚ) (v : List ℚ) : ℝ :=
  ((dot q v : ℚ) : ℝ) / Real.sqrt ((dot v v : ℚ) : ℝ)

/-- Field lookup skips a leading field with a different key. -/
theorem getField_cons_ne (k : String) (v : JVal) (d : Body) (key : String)
    (h : ¬ k = key) : getField ((k, v) :: d) key = getField d key := by
  simp [getField, h]

/-- Looking up a field in the empty body yields nothing. -/
theorem getField_nil (key : String) : getField [] key = none := rfl

/-- C10: `generate_vector_index_name` returns the constant string
"dune_vector_search" for every combination of label, property name, dimension
count and similarity function, so every caller of the shared helper targets
the same single vector index. -/
theorem c10_constant_index_name (label property_name : String)
    (dimensions : Nat) (similarity : String) :
    generate_vector_index_name label property_name dimensions similarity =
      "dune_vector_search" := rfl

/-- C9: the vector index of the deployment is provisioned with 1536
dimensions and the example retrieval scripts embed with
text-embedding-ada-002 (1536-dimensional), but the query service `app.py`
embeds query texts with text-embedding-3-large, whose output dimension is
3072, not the configured 1536: the single-fixed-dimension property fails at
the query service. -/
theorem c9_embedding_dimension_mismatch :
    DIMENSION = 1536 ∧
    openAIEmbeddingDim retrievalExampleEmbedderModel = some DIMENSION ∧
    openAIEmbeddingDim appEmbedderModel = some 3072 ∧
    openAIEmbeddingDim appEmbedderModel ≠ some DIMENSION := by
  refine ⟨rfl, rfl, rfl, by decide⟩

/-- C1 counterexample: a `POST /query` request without a body is answered
with status code 400 and a body that carries an error field but no `status`
field at all, contradicting the claim that the 400 body contains
status "error". -/
theorem c1_counterexample :
    (query (fun _ _ => Except.ok "") none).1 = 400 ∧
    getField (query (fun _ _ => Except.ok "") none).2 "error" =
      some (JVal.str "No data provided") ∧
    getField (query (fun _ _ => Except.ok "") none).2 "status" = none :=
  ⟨rfl, rfl, rfl⟩

/-- C1 (amended): `POST /query` returns 400 with a body holding only an
error field when the request body is absent, empty, or lacks a `query` field;
200 with answer, query, top_k and status "success" when the search succeeds;
and 500 with an error field and status "error" when the search raises. -/
theorem c1_query_contract (rag : RagFn) (data : Option Body) :
    ((data = none ∨ data = some ([] : Body)) →
      query rag data = (400, [("error", JVal.str "No data provided")])) ∧
    (∀ d : Body, data = some d → d ≠ [] → getField d "query" = none →
      query rag data = (400, [("error", JVal.str "No query provided")])) ∧
    (∀ (d : Body) (qv : JVal) (ans : String), data = some d →
      getField d "query" = some qv →
      rag qv ((getField d "top_k").getD (JVal.num 5)) = Except.ok ans →
      query rag data = (200, [("answer", JVal.str ans), ("query", qv),
        ("top_k", (getField d "top_k").getD (JVal.num 5)),
        ("status", JVal.str "success")])) ∧
    (∀ (d : Body) (qv : JVal) (msg : String), data = some d →
      getField d "query" = some qv →
      rag qv ((getField d "top_k").getD (JVal.num 5)) = Except.error msg →
      query rag data = (500, [("error", JVal.str msg),
        ("status", JVal.str "error")])) := by
  refine ⟨?_, ?_, ?_, ?_⟩
  · rintro (rfl | rfl) <;> rfl
  · rintro d rfl hne hq
    have he : d.isEmpty = false := by
      cases d with
      | nil => exact absurd rfl hne
      | cons x xs => rfl
    simp [query, he, hq]
  · rintro d qv ans rfl hq hr
    have he : d.isEmpty = false := by
      cases d with
      | nil => simp [getField] at hq
      | cons x xs => rfl
    simp [query, he, hq, hr]
  · rintro d qv msg rfl hq hr
    have he : d.isEmpty = false := by
      cases d with
      | nil => simp [getField] at hq
      | cons x xs => rfl
    simp [query, he, hq, hr]

/-- C1 witness: the contract applied to a concrete successful request. -/
theorem c1_witness :
    query (fun _ _ => Except.ok "ANS") (some [("query", JVal.str "who")]) =
      (200, [("answer", JVal.str "ANS"), ("query", JVal.str "who"),
             ("top_k", JVal.num 5), ("status", JVal.str "success")]) :=
  (c1_query_contract (fun _ _ => Except.ok "ANS")
      (some [("query", JVal.str "who")])).2.2.1
    [("query", JVal.str "who")] (JVal.str "who") "ANS" rfl rfl rfl

/-- C8 counterexample: on the same successful request the `POST /query`
success body carries a `top_k` field but the `POST /webhook` success body
does not, contradicting the claim that the webhook returns the same response
shape including the top_k field. -/
theorem c8_counterexample :
    getField (webhook (fun _ _ => Except.ok "A")
        (some [("query", JVal.str "q")])).2 "top_k" = none ∧
    getField (query (fun _ _ => Except.ok "A")
        (some [("query", JVal.str "q")])).2 "top_k" = some (JVal.num 5) :=
  ⟨rfl, rfl⟩

/-- C8 (amended): `POST /webhook` performs the same validation and the same
search as `POST /query` with top_k forced to 5, and returns the same
responses except that the success body omits the `top_k` field. -/
theorem c8_webhook_refines_query (rag : RagFn) (data : Option Body) :
    webhook rag data = stripTopK (query rag (forceTopK5 data)) := by
  match data with
  | none => rfl
  | some d =>
    by_cases hd : d.isEmpty
    · simp [forceTopK5, hd, webhook, query, stripTopK]
    · have he : d.isEmpty = false := by simpa using hd
      cases hq : getField d "query" with
      | none =>
          simp [forceTopK5, he, webhook, query, stripTopK, getField, hq]
      | some qv =>
          cases hr : rag qv (JVal.num 5) with
          | ok ans =>
              simp [forceTopK5, he, webhook, query, stripTopK, getField, hq, hr]
          | error e =>
              simp [forceTopK5, he, webhook, query, stripTopK, getField, hq, hr]

/-- C3: with schema enforcement on, a candidate relation is accepted by the
extraction stage exactly when its (subjectType, relationType, objectType)
triple is in the allowed set; an off-schema candidate is dropped individually
while every other valid candidate of the segment is kept. -/
theorem c3_schema_filter (allowed : List (String × String × String))
    (cands : List Relation) (r : Relation) :
    r ∈ filterBySchema true allowed cands ↔
      r ∈ cands ∧ (r.subjectType, r.relationType, r.objectType) ∈ allowed := by
  simp [filterBySchema]

/-- C2: the Text-to-Query strategy never lets a mutating generated statement
touch the store: the database state after a search is the state before it, an
invalid statement fails with QueryGenerationError, a mutating one is rejected
with UnsafeQueryError, a successful result implies the statement was not
mutating, and the caller's loop attempts each query exactly once with no
retry. -/
theorem c2_text2cypher_safety {Db : Type} (cfg : T2CConfig Db) (db : Db)
    (q : String) :
    (text2cypher cfg db q).2 = db ∧
    (cfg.syntaxOk (cfg.gen q) = false →
      (text2cypher cfg db q).1 = Except.error T2CErr.queryGenerationError) ∧
    (cfg.syntaxOk (cfg.gen q) = true → isMutating (cfg.gen q) = true →
      (text2cypher cfg db q).1 = Except.error T2CErr.unsafeQueryError) ∧
    (∀ recs, (text2cypher cfg db q).1 = Except.ok recs →
      isMutating (cfg.gen q) = false ∧ recs = cfg.run db (cfg.gen q)) ∧
    (∀ qs : List String, (processQueries cfg db qs).map Prod.fst = qs) := by
  refine ⟨?_, ?_, ?_, ?_, ?_⟩
  · unfold text2cypher
    dsimp only
    split_ifs <;> rfl
  · intro h; simp [text2cypher, h]
  · intro h1 h2; simp [text2cypher, h1, h2]
  · intro recs h
    by_cases h1 : cfg.syntaxOk (cfg.gen q) = false
    · simp [text2cypher, h1] at h
    · by_cases h2 : isMutating (cfg.gen q) = true
      · simp [text2cypher, h1, h2] at h
      · refine ⟨by simpa using h2, ?_⟩
        simp [text2cypher, h1, h2] at h
        exact h.symm
  · intro qs
    induction qs with
    | nil => rfl
    | cons x xs ih => simpa [processQueries] using ih

/-- C2 witness: a generated statement with a write keyword is rejected with
UnsafeQueryError. -/
theorem c2_witness :
    isMutating ["CREATE", "(n)"] = true ∧
    (text2cypher
        (⟨fun _ => ["CREATE", "(n)"], fun _ => true, fun _ _ => []⟩ :
          T2CConfig Nat) 0 "add a node").1 =
      Except.error T2CErr.unsafeQueryError :=
  ⟨by decide,
   (c2_text2cypher_safety
      (⟨fun _ => ["CREATE", "(n)"], fun _ => true, fun _ _ => []⟩ :
        T2CConfig Nat) 0 "add a node").2.2.1 rfl (by decide)⟩

/-- The canonical entity built for a key that some mention realizes carries
exactly that resolution key. -/
theorem normKey_canonOf (k : String × String) (l : List Entity)
    (h : ∃ e ∈ l, normKey e = k) : normKey (canonOf k l) = k := by
  obtain ⟨e, he, hk⟩ := h
  have hmem : e ∈ l.filter (fun x => normKey x = k) := by
    simp only [List.mem_filter, decide_eq_true_eq]
    exact ⟨he, hk⟩
  unfold canonOf
  cases hf : l.filter (fun x => normKey x = k) with
  | nil => rw [hf] at hmem; cases hmem
  | cons a tail =>
      have ha : a ∈ l.filter (fun x => normKey x = k) := by
        rw [hf]; exact List.mem_cons_self a tail
      have hka : normKey a = k := by
        have := List.mem_filter.mp ha
        simpa using this.2
      simpa [normKey, normStr] using hka

/-- The resolution keys of the resolver's output are exactly the de-duplicated
keys of the input mentions. -/
theorem map_normKey_resolve (l : List Entity) :
    (resolve l).map normKey = (l.map normKey).dedup := by
  unfold resolve
  rw [List.map_map]
  have h : ∀ k ∈ (l.map normKey).dedup, (normKey ∘ fun k => canonOf k l) k = k := by
    intro k hk
    rw [List.mem_dedup] at hk
    obtain ⟨e, he, hk2⟩ := List.mem_map.mp hk
    exact normKey_canonOf k l ⟨e, he, hk2⟩
  rw [List.map_congr_left h]
  simp

/-- C4: after entity resolution, two distinct canonical entities never share a
normalized (type, name) resolution key — at most one canonical entity per key,
with case/whitespace-insensitive exact matching — and every input mention has
a canonical entity carrying its key, so two candidates with the same name but
different types resolve to two distinct canonical entities. -/
theorem c4_resolution (l : List Entity) :
    (∀ e1 ∈ resolve l, ∀ e2 ∈ resolve l, e1 ≠ e2 → normKey e1 ≠ normKey e2) ∧
    (∀ e ∈ l, ∃ c ∈ resolve l, normKey c = normKey e) := by
  constructor
  · intro e1 h1 e2 h2 hne
    have hnd : ((resolve l).map normKey).Nodup := by
      rw [map_normKey_resolve]; exact List.nodup_dedup _
    intro hkeq
    exact hne (List.inj_on_of_nodup_map hnd h1 h2 hkeq)
  · intro e he
    refine ⟨canonOf (normKey e) l, ?_, ?_⟩
    · unfold resolve
      exact List.mem_map_of_mem _ (List.mem_dedup.mpr (List.mem_map_of_mem _ he))
    · exact normKey_canonOf (normKey e) l ⟨e, he, rfl⟩

/-- C4 witness: three concrete mentions — "Person"/"Paul", "person"/" paul "
(same key after normalization) and "Location"/"Paul" (same name, different
type) — resolve to two canonical entities with distinct keys, and the
lower-case mention maps onto the canonical "Person" entity. -/
theorem c4_witness :
    normKey (⟨"Person", "Paul", [("age", "15")]⟩ : Entity) ≠
      normKey (⟨"Location", "Paul", []⟩ : Entity) ∧
    (∃ c ∈ resolve [(⟨"Person", "Paul", []⟩ : Entity),
        ⟨"person", " paul ", [("age", "15")]⟩, ⟨"Location", "Paul", []⟩],
      normKey c = normKey (⟨"person", " paul ", [("age", "15")]⟩ : Entity)) :=
  ⟨(c4_resolution [(⟨"Person", "Paul", []⟩ : Entity),
        ⟨"person", " paul ", [("age", "15")]⟩, ⟨"Location", "Paul", []⟩]).1
      ⟨"Person", "Paul", [("age", "15")]⟩ (by decide)
      ⟨"Location", "Paul", []⟩ (by decide) (by decide),
   (c4_resolution [(⟨"Person", "Paul", []⟩ : Entity),
        ⟨"person", " paul ", [("age", "15")]⟩, ⟨"Location", "Paul", []⟩]).2
      ⟨"person", " paul ", [("age", "15")]⟩ (by decide)⟩

/-- Entity upserts do not touch the relation set. -/
theorem rels_writeEntity (s : Store) (k : String × String) (p : Props) :
    (writeEntity s k p).rels = s.rels := by
  unfold writeEntity; split_ifs <;> rfl

/-- Relation writes do not touch the entity nodes. -/
theorem ents_writeRelation (s : Store) (r : RelId) :
    (writeRelation s r).ents = s.ents := by
  unfold writeRelation; split_ifs <;> rfl

/-- Key set after an entity upsert: unchanged when the key is present, the key
appended when it is fresh. -/
theorem keys_writeEntity (s : Store) (k : String × String) (p : Props) :
    (writeEntity s k p).keys =
      if k ∈ s.keys then s.keys else s.keys ++ [k] := by
  unfold writeEntity Store.keys
  split_ifs with h
  · rw [List.map_map]
    refine List.map_congr_left ?_
    intro kv _
    by_cases hkv : kv.1 = k <;> simp [hkv]
  · simp

/-- Node count after an entity upsert: unchanged when the key is present, one
more when it is fresh. -/
theorem length_writeEntity (s : Store) (k : String × String) (p : Props) :
    (writeEntity s k p).ents.length =
      if k ∈ s.keys then s.ents.length else s.ents.length + 1 := by
  unfold writeEntity
  split_ifs with h <;> simp

/-- An entity upsert only ever grows the key set. -/
theorem keys_mono_writeEntity (s : Store) (k k' : String × String) (p : Props)
    (h : k' ∈ s.keys) : k' ∈ (writeEntity s k p).keys := by
  rw [keys_writeEntity]
  split_ifs
  · exact h
  · exact List.mem_append_left _ h

/-- The upserted key is present afterwards. -/
theorem self_mem_keys_writeEntity (s : Store) (k : String × String) (p : Props) :
    k ∈ (writeEntity s k p).keys := by
  rw [keys_writeEntity]
  split_ifs with h
  · exact h
  · exact List.mem_append_right _ (List.mem_singleton.mpr rfl)

/-- Keys survive the whole entity-upsert phase. -/
theorem keys_mono_entFold (es : List ((String × String) × Props)) :
    ∀ (s : Store) (k' : String × String), k' ∈ s.keys →
      k' ∈ (es.foldl (fun acc kp => writeEntity acc kp.1 kp.2) s).keys := by
  induction es with
  | nil => intro s k' h; exact h
  | cons a tail ih =>
      intro s k' h
      exact ih _ k' (keys_mono_writeEntity _ _ _ _ h)

/-- After the entity-upsert phase every written key is present. -/
theorem mem_keys_entFold (es : List ((String × String) × Props)) :
    ∀ (s : Store), ∀ kp ∈ es,
      kp.1 ∈ (es.foldl (fun acc x => writeEntity acc x.1 x.2) s).keys := by
  induction es with
  | nil => intro s kp h; cases h
  | cons a tail ih =>
      intro s kp h
      rcases List.mem_cons.mp h with rfl | h
      · exact keys_mono_entFold tail _ _ (self_mem_keys_writeEntity s kp.1 kp.2)
      · exact ih _ kp h

/-- When every written key is already present, the entity-upsert phase keeps
both the node count and the key set. -/
theorem entFold_preserves (es : List ((String × String) × Props)) :
    ∀ (s : Store), (∀ kp ∈ es, kp.1 ∈ s.keys) →
      (es.foldl (fun acc x => writeEntity acc x.1 x.2) s).ents.length =
          s.ents.length ∧
        (es.foldl (fun acc x => writeEntity acc x.1 x.2) s).keys = s.keys := by
  induction es with
  | nil => intro s _; exact ⟨rfl, rfl⟩
  | cons a tail ih =>
      intro s h
      have ha : a.1 ∈ s.keys := h a (List.mem_cons_self a tail)
      have hlen : (writeEntity s a.1 a.2).ents.length = s.ents.length := by
        rw [length_writeEntity, if_pos ha]
      have hkeys : (writeEntity s a.1 a.2).keys = s.keys := by
        rw [keys_writeEntity, if_pos ha]
      have htail := ih (writeEntity s a.1 a.2)
        (fun kp hkp => by rw [hkeys]; exact h kp (List.mem_cons_of_mem a hkp))
      exact ⟨htail.1.trans hlen, htail.2.trans hkeys⟩

/-- The entity-upsert phase does not touch the relation set. -/
theorem rels_entFold (es : List ((String × String) × Props)) :
    ∀ (s : Store),
      (es.foldl (fun acc x => writeEntity acc x.1 x.2) s).rels = s.rels := by
  induction es with
  | nil => intro s; rfl
  | cons a tail ih => intro s; rw [List.foldl_cons, ih, rels_writeEntity]

/-- Writing an already-present relation is the identity on the store. -/
theorem writeRelation_mem (s : Store) (r : RelId) (h : r ∈ s.rels) :
    writeRelation s r = s := by
  unfold writeRelation; rw [if_pos h]

/-- A relation write only ever grows the relation set. -/
theorem rels_mono_writeRelation (s : Store) (r r' : RelId) (h : r' ∈ s.rels) :
    r' ∈ (writeRelation s r).rels := by
  unfold writeRelation
  split_ifs
  · exact h
  · exact List.mem_append_left _ h

/-- The written relation is present afterwards. -/
theorem self_mem_writeRelation (s : Store) (r : RelId) :
    r ∈ (writeRelation s r).rels := by
  unfold writeRelation
  split_ifs with h
  · exact h
  · exact List.mem_append_right _ (List.mem_singleton.mpr rfl)

/-- Relations survive the whole relation-write phase. -/
theorem rels_mono_relFold (rs : List RelId) :
    ∀ (s : Store) (r' : RelId), r' ∈ s.rels →
      r' ∈ (rs.foldl writeRelation s).rels := by
  induction rs with
  | nil => intro s r' h; exact h
  | cons a tail ih =>
      intro s r' h
      exact ih _ r' (rels_mono_writeRelation _ _ _ h)

/-- After the relation-write phase every written relation is present. -/
theorem mem_rels_relFold (rs : List RelId) :
    ∀ (s : Store), ∀ r ∈ rs, r ∈ (rs.foldl writeRelation s).rels := by
  induction rs with
  | nil => intro s r h; cases h
  | cons a tail ih =>
      intro s r h
      rcases List.mem_cons.mp h with rfl | h
      · exact rels_mono_relFold tail _ _ (self_mem_writeRelation s r)
      · exact ih _ r h

/-- When every written relation is already present, the relation-write phase
is the identity on the store. -/
theorem relFold_id (rs : List RelId) :
    ∀ (s : Store), (∀ r ∈ rs, r ∈ s.rels) → rs.foldl writeRelation s = s := by
  induction rs with
  | nil => intro s _; rfl
  | cons a tail ih =>
      intro s h
      have ha : writeRelation s a = s :=
        writeRelation_mem s a (h a (List.mem_cons_self a tail))
      calc (a :: tail).foldl writeRelation s
          = tail.foldl writeRelation (writeRelation s a) := rfl
        _ = tail.foldl writeRelation s := by rw [ha]
        _ = s := ih s (fun r hr => h r (List.mem_cons_of_mem a hr))

/-- C5: ingesting the same document payload twice leaves the store with the
same entity-node count and the same relation count as ingesting it once —
the second pass only merges properties into existing nodes (upsert by
resolution key) and re-writes already-present relations as no-ops. -/
theorem c5_ingest_idempotent_counts (s : Store) (d : DocPayload) :
    entityCount (ingest (ingest s d) d) = entityCount (ingest s d) ∧
    relationCount (ingest (ingest s d) d) = relationCount (ingest s d) := by
  have hkeys : ∀ kp ∈ d.ents, kp.1 ∈ (ingest s d).keys := by
    intro kp hkp
    have h1 : kp.1 ∈
        ((d.ents.foldl (fun acc x => writeEntity acc x.1 x.2) s)).keys :=
      mem_keys_entFold d.ents s kp hkp
    have h2 : (ingest s d).ents =
        (d.ents.foldl (fun acc x => writeEntity acc x.1 x.2) s).ents := by
      unfold ingest
      generalize (d.ents.foldl (fun acc x => writeEntity acc x.1 x.2) s) = u
      induction d.rels generalizing u with
      | nil => rfl
      | cons a tail ih => rw [List.foldl_cons, ih, ents_writeRelation]
    unfold Store.keys
    rw [h2]
    exact h1
  have hrels : ∀ r ∈ d.rels, r ∈ (ingest s d).rels := by
    intro r hr
    exact mem_rels_relFold d.rels _ r hr
  have hef := entFold_preserves d.ents (ingest s d) hkeys
  have her := rels_entFold d.ents (ingest s d)
  have hid : d.rels.foldl writeRelation
      (d.ents.foldl (fun acc x => writeEntity acc x.1 x.2) (ingest s d)) =
      d.ents.foldl (fun acc x => writeEntity acc x.1 x.2) (ingest s d) := by
    refine relFold_id d.rels _ ?_
    intro r hr
    rw [her]
    exact hrels r hr
  have htop : ingest (ingest s d) d =
      d.rels.foldl writeRelation
        (d.ents.foldl (fun acc x => writeEntity acc x.1 x.2) (ingest s d)) := rfl
  constructor
  · show (ingest (ingest s d) d).ents.length = (ingest s d).ents.length
    rw [htop, hid]
    exact hef.1
  · show (ingest (ingest s d) d).rels.length = (ingest s d).rels.length
    rw [htop, hid, her]

/-- A member of a ranked list has a rank. -/
theorem rankOf_mem (l : List String) (target : String) (h : target ∈ l) :
    ∃ i, rankOf l target = some i := by
  induction l with
  | nil => cases h
  | cons x rest ih =>
      by_cases hx : x = target
      · exact ⟨0, by simp [rankOf, hx]⟩
      · rcases List.mem_cons.mp h with rfl | h2
        · exact absurd rfl hx
        · obtain ⟨i, hi⟩ := ih h2
          exact ⟨i + 1, by simp [rankOf, hx, hi]⟩

/-- C7: the Hybrid strategy's fused list never repeats a segment id; a
segment present in both the vector and the fulltext result lists appears at
most once — exactly once whenever it survives the truncation — carrying the
combined reciprocal-rank score of its two ranks, and the fused list is
truncated to top_k. -/
theorem c7_hybrid_fusion (c : ℚ) (top_k : Nat) (vec ft : List String)
    (target : String) (hv : target ∈ vec) (hf : target ∈ ft) :
    (hybridFuse c top_k vec ft).Nodup ∧
    (hybridFuse c top_k vec ft).length = min top_k ((vec ++ ft).dedup).length ∧
    (hybridFuse c top_k vec ft).count target ≤ 1 ∧
    (target ∈ hybridFuse c top_k vec ft →
      (hybridFuse c top_k vec ft).count target = 1) ∧
    (∃ i j, rankOf vec target = some i ∧ rankOf ft target = some j ∧
      fusedScore c vec ft target = 1 / (c + i + 1) + 1 / (c + j + 1)) := by
  have hperm := List.perm_insertionSort
      (fun a b => fusedScore c vec ft b ≤ fusedScore c vec ft a)
      ((vec ++ ft).dedup)
  have hnd : (((vec ++ ft).dedup).insertionSort
      (fun a b => fusedScore c vec ft b ≤ fusedScore c vec ft a)).Nodup :=
    hperm.nodup_iff.mpr (List.nodup_dedup _)
  have hndF : (hybridFuse c top_k vec ft).Nodup :=
    List.Nodup.sublist (List.take_sublist _ _) hnd
  refine ⟨hndF, ?_, ?_, ?_, ?_⟩
  · unfold hybridFuse
    rw [List.length_take, List.length_insertionSort]
  · exact List.nodup_iff_count_le_one.mp hndF target
  · intro hmem
    exact List.count_eq_one_of_mem hndF hmem
  · obtain ⟨i, hi⟩ := rankOf_mem vec target hv
    obtain ⟨j, hj⟩ := rankOf_mem ft target hf
    exact ⟨i, j, hi, hj, by simp [fusedScore, rrfScore, hi, hj]⟩

/-- C7 witness: the fusion applied to concrete vector and fulltext top lists
sharing the segment id "s2". -/
theorem c7_witness :
    ("s2" ∈ ["s1", "s2", "s3"]) ∧ ("s2" ∈ ["s2", "s4"]) ∧
    ((hybridFuse 60 5 ["s1", "s2", "s3"] ["s2", "s4"]).Nodup ∧
     (hybridFuse 60 5 ["s1", "s2", "s3"] ["s2", "s4"]).length =
       min 5 ((["s1", "s2", "s3"] ++ ["s2", "s4"]).dedup).length ∧
     (hybridFuse 60 5 ["s1", "s2", "s3"] ["s2", "s4"]).count "s2" ≤ 1 ∧
     ("s2" ∈ hybridFuse 60 5 ["s1", "s2", "s3"] ["s2", "s4"] →
       (hybridFuse 60 5 ["s1", "s2", "s3"] ["s2", "s4"]).count "s2" = 1) ∧
     (∃ i j, rankOf ["s1", "s2", "s3"] "s2" = some i ∧
       rankOf ["s2", "s4"] "s2" = some j ∧
       fusedScore 60 ["s1", "s2", "s3"] ["s2", "s4"] "s2" =
         1 / (60 + i + 1) + 1 / (60 + j + 1))) :=
  ⟨by decide, by decide,
   c7_hybrid_fusion 60 5 ["s1", "s2", "s3"] ["s2", "s4"] "s2"
     (by decide) (by decide)⟩

/-- The decidable cosine comparison agrees with the real-valued one: for
positive squared norms, `cosLeB da A db B` holds exactly when
`da / sqrt A ≤ db / sqrt B` over the reals. -/
theorem cosLeB_iff (da A db B : ℚ) (hA : 0 < A) (hB : 0 < B) :
    cosLeB da A db B = true ↔
      (da : ℝ) / Real.sqrt (A : ℝ) ≤ (db : ℝ) / Real.sqrt (B : ℝ) := by
  have hA' : (0:ℝ) < (A:ℝ) := by exact_mod_cast hA
  have hB' : (0:ℝ) < (B:ℝ) := by exact_mod_cast hB
  have hsA : (0:ℝ) < Real.sqrt (A:ℝ) := Real.sqrt_pos.mpr hA'
  have hsB : (0:ℝ) < Real.sqrt (B:ℝ) := Real.sqrt_pos.mpr hB'
  have hA2 : Real.sqrt (A:ℝ) ^ 2 = (A:ℝ) := Real.sq_sqrt hA'.le
  have hB2 : Real.sqrt (B:ℝ) ^ 2 = (B:ℝ) := Real.sq_sqrt hB'.le
  rw [div_le_div_iff hsA hsB]
  unfold cosLeB
  by_cases h1 : da < 0
  · have h1' : (da:ℝ) < 0 := by exact_mod_cast h1
    rw [if_pos h1]
    by_cases h2 : db < 0
    · have h2' : (db:ℝ) < 0 := by exact_mod_cast h2
      rw [if_pos h2]
      simp only [decide_eq_true_eq]
      constructor
      · intro h
        have h' : (db:ℝ) * db * (A:ℝ) ≤ (da:ℝ) * da * (B:ℝ) := by
          exact_mod_cast h
        nlinarith [mul_neg_of_neg_of_pos h1' hsB,
          mul_neg_of_neg_of_pos h2' hsA]
      · intro h
        have h' : (db:ℝ) * db * (A:ℝ) ≤ (da:ℝ) * da * (B:ℝ) := by
          nlinarith [mul_neg_of_neg_of_pos h1' hsB,
            mul_neg_of_neg_of_pos h2' hsA]
        exact_mod_cast h'
    · have h2' : (0:ℝ) ≤ (db:ℝ) := by exact_mod_cast not_lt.mp h2
      rw [if_neg h2]
      refine iff_of_true rfl ?_
      nlinarith [mul_neg_of_neg_of_pos h1' hsB, mul_nonneg h2' hsA.le]
  · have h1' : (0:ℝ) ≤ (da:ℝ) := by exact_mod_cast not_lt.mp h1
    rw [if_neg h1]
    by_cases h2 : db < 0
    · have h2' : (db:ℝ) < 0 := by exact_mod_cast h2
      rw [if_pos h2]
      refine iff_of_false (by simp) (not_le.mpr ?_)
      nlinarith [mul_neg_of_neg_of_pos h2' hsA, mul_nonneg h1' hsB.le]
    · have h2' : (0:ℝ) ≤ (db:ℝ) := by exact_mod_cast not_lt.mp h2
      rw [if_neg h2]
      simp only [decide_eq_true_eq]
      constructor
      · intro h
        have h' : (da:ℝ) * da * (B:ℝ) ≤ (db:ℝ) * db * (A:ℝ) := by
          exact_mod_cast h
        nlinarith [mul_nonneg h1' hsB.le, mul_nonneg h2' hsA.le]
      · intro h
        have h' : (da:ℝ) * da * (B:ℝ) ≤ (db:ℝ) * db * (A:ℝ) := by
          nlinarith [mul_nonneg h1' hsB.le, mul_nonneg h2' hsA.le]
        exact_mod_cast h'

/-- The segment-level cosine comparison agrees with the query-normalized
ranking key. -/
theorem cosLeB_rankKey (q : List ℚ) (a b : VSeg) :
    cosLeB (dot q a.1.embedding) (dot a.1.embedding a.1.embedding)
        (dot q b.1.embedding) (dot b.1.embedding b.1.embedding) = true ↔
      rankKey q a.1.embedding ≤ rankKey q b.1.embedding := by
  unfold rankKey
  exact cosLeB_iff _ _ _ _ a.2 b.2

/-- Characterization of the ranking relation: a segment precedes another
exactly when its ranking key is strictly larger, or the keys are equal and its
ordinal is not larger. -/
theorem vrank_iff (q : List ℚ) (a b : VSeg) :
    vrank q a b ↔
      (rankKey q b.1.embedding < rankKey q a.1.embedding ∨
        (rankKey q a.1.embedding = rankKey q b.1.embedding ∧
          a.1.index ≤ b.1.index)) := by
  have hab := cosLeB_rankKey q a b
  have hba := cosLeB_rankKey q b a
  unfold vrank vrankB
  by_cases h1 : cosLeB (dot q a.1.embedding) (dot a.1.embedding a.1.embedding)
      (dot q b.1.embedding) (dot b.1.embedding b.1.embedding) = true
  · by_cases h2 : cosLeB (dot q b.1.embedding) (dot b.1.embedding b.1.embedding)
        (dot q a.1.embedding) (dot a.1.embedding a.1.embedding) = true
    · have heq : rankKey q a.1.embedding = rankKey q b.1.embedding :=
        le_antisymm (hab.mp h1) (hba.mp h2)
      simp only [h1, h2, Bool.and_self, if_true, decide_eq_true_eq]
      constructor
      · intro h; exact Or.inr ⟨heq, h⟩
      · rintro (h | ⟨_, h⟩)
        · exact absurd heq (ne_of_gt h)
        · exact h
    · have hlt : rankKey q a.1.embedding < rankKey q b.1.embedding :=
        lt_of_le_of_ne (hab.mp h1)
          (fun he => h2 (hba.mpr he.ge))
      have h2f : cosLeB (dot q b.1.embedding) (dot b.1.embedding b.1.embedding)
          (dot q a.1.embedding) (dot a.1.embedding a.1.embedding) = false :=
        Bool.not_eq_true _ ▸ eq_false_of_ne_true h2
      simp only [h1, h2f, Bool.and_false, if_false]
      refine iff_of_false (by simp) ?_
      rintro (h | ⟨he, _⟩)
      · exact absurd hlt (not_lt.mpr h.le)
      · exact absurd he (ne_of_lt hlt)
  · have h1f : cosLeB (dot q a.1.embedding) (dot a.1.embedding a.1.embedding)
        (dot q b.1.embedding) (dot b.1.embedding b.1.embedding) = false :=
      eq_false_of_ne_true h1
    have hlt : rankKey q b.1.embedding < rankKey q a.1.embedding := by
      rcases le_total (rankKey q a.1.embedding) (rankKey q b.1.embedding) with h | h
      · exact absurd (hab.mpr h) h1
      · exact lt_of_le_of_ne h (fun he => h1 (hab.mpr he.ge))
    have h2 : cosLeB (dot q b.1.embedding) (dot b.1.embedding b.1.embedding)
        (dot q a.1.embedding) (dot a.1.embedding a.1.embedding) = true :=
      hba.mpr hlt.le
    simp only [h1f, h2, Bool.false_and, if_false]
    exact iff_of_true rfl (Or.inl hlt)

/-- The ranking relation is total. -/
instance vrank_total (q : List ℚ) : IsTotal VSeg (vrank q) := by
  constructor
  intro a b
  rw [vrank_iff, vrank_iff]
  rcases lt_trichotomy (rankKey q a.1.embedding) (rankKey q b.1.embedding)
    with h | h | h
  · exact Or.inr (Or.inl h)
  · rcases Nat.le_total a.1.index b.1.index with hi | hi
    · exact Or.inl (Or.inr ⟨h, hi⟩)
    · exact Or.inr (Or.inr ⟨h.symm, hi⟩)
  · exact Or.inl (Or.inl h)

/-- The ranking relation is transitive. -/
instance vrank_trans (q : List ℚ) : IsTrans VSeg (vrank q) := by
  constructor
  intro a b c hab hbc
  rw [vrank_iff] at hab hbc ⊢
  rcases hab with h1 | ⟨h1, i1⟩ <;> rcases hbc with h2 | ⟨h2, i2⟩
  · exact Or.inl (h2.trans h1)
  · exact Or.inl (h2 ▸ h1)
  · exact Or.inl (by rw [h1]; exact h2)
  · exact Or.inr ⟨h1.trans h2, i1.trans i2⟩

/-- Cosine similarity is the ranking key scaled by the query norm. -/
theorem cosineSim_eq_rankKey (q v : List ℚ) :
    cosineSim q v = rankKey q v / Real.sqrt ((dot q q : ℚ) : ℝ) := by
  unfold cosineSim rankKey
  rw [div_div, mul_comm]

/-- For a nonzero query embedding, the ranking relation is the descending
cosine-similarity order with ties broken by ascending ordinal. -/
theorem vrank_iff_cosine (q : List ℚ) (hq : 0 < dot q q) (a b : VSeg) :
    vrank q a b ↔
      (cosineSim q b.1.embedding < cosineSim q a.1.embedding ∨
        (cosineSim q a.1.embedding = cosineSim q b.1.embedding ∧
          a.1.index ≤ b.1.index)) := by
  have hq' : (0:ℝ) < Real.sqrt ((dot q q : ℚ) : ℝ) := by
    refine Real.sqrt_pos.mpr ?_
    exact_mod_cast hq
  rw [vrank_iff]
  rw [cosineSim_eq_rankKey, cosineSim_eq_rankKey]
  constructor
  · rintro (h | ⟨h, hi⟩)
    · exact Or.inl ((div_lt_div_right hq').mpr h)
    · exact Or.inr ⟨by rw [h], hi⟩
  · rintro (h | ⟨h, hi⟩)
    · exact Or.inl ((div_lt_div_right hq').mp h)
    · refine Or.inr ⟨?_, hi⟩
      have := (div_le_div_right hq').mp h.le
      have h2 := (div_le_div_right hq').mp h.ge
      exact le_antisymm this h2

/-- C6: for every query embedding (nonzero) and every top_k, the Vector
strategy returns exactly the first min(top_k, n) segments of the
cosine-similarity ranking: the result is part of a permutation of the
candidates, has length min(top_k, n), is ordered by strictly descending
cosine similarity with equal scores broken by ascending segment ordinal, and
every returned segment ranks at least as high as every segment left out. -/
theorem c6_vector_topk (q : List ℚ) (top_k : Nat) (segs : List VSeg)
    (hq : 0 < dot q q) :
    ∃ rest : List VSeg,
      (vectorRetrieve q top_k segs ++ rest).Perm segs ∧
      (vectorRetrieve q top_k segs).length = min top_k segs.length ∧
      (vectorRetrieve q top_k segs).Pairwise (fun a b =>
        cosineSim q b.1.embedding < cosineSim q a.1.embedding ∨
        (cosineSim q a.1.embedding = cosineSim q b.1.embedding ∧
          a.1.index ≤ b.1.index)) ∧
      (∀ a ∈ vectorRetrieve q top_k segs, ∀ s ∈ rest,
        cosineSim q s.1.embedding < cosineSim q a.1.embedding ∨
        (cosineSim q a.1.embedding = cosineSim q s.1.embedding ∧
          a.1.index ≤ s.1.index)) := by
  have hperm : (segs.insertionSort (vrank q)).Perm segs :=
    List.perm_insertionSort _ _
  have hsorted : (segs.insertionSort (vrank q)).Pairwise (vrank q) :=
    List.sorted_insertionSort (vrank q) segs
  refine ⟨(segs.insertionSort (vrank q)).drop top_k, ?_, ?_, ?_, ?_⟩
  · show ((segs.insertionSort (vrank q)).take top_k ++
        (segs.insertionSort (vrank q)).drop top_k).Perm segs
    rw [List.take_append_drop]
    exact hperm
  · show ((segs.insertionSort (vrank q)).take top_k).length =
      min top_k segs.length
    rw [List.length_take, List.length_insertionSort]
  · show ((segs.insertionSort (vrank q)).take top_k).Pairwise _
    have hp := hsorted.sublist (List.take_sublist top_k _)
    exact hp.imp (fun hab => (vrank_iff_cosine q hq _ _).mp hab)
  · intro a ha s hs
    have hsplit : ((segs.insertionSort (vrank q)).take top_k ++
        (segs.insertionSort (vrank q)).drop top_k).Pairwise (vrank q) := by
      rw [List.take_append_drop]
      exact hsorted
    have h3 := (List.pairwise_append.mp hsplit).2.2
    exact (vrank_iff_cosine q hq a s).mp (h3 a ha s hs)

/-- C6 witness: the ranking theorem applied to a concrete nonzero query
embedding and two concrete segments. -/
theorem c6_witness :
    (0 : ℚ) < dot [1] [1] ∧
    (∃ rest : List VSeg,
      (vectorRetrieve [1] 1
          [⟨{ sid := "s1", index := 0, text := "alpha", embedding := [1] },
             by simp [dot]⟩,
           ⟨{ sid := "s2", index := 1, text := "beta", embedding := [-1] },
             by simp [dot]⟩] ++ rest).Perm
        [⟨{ sid := "s1", index := 0, text := "alpha", embedding := [1] },
           by simp [dot]⟩,
         ⟨{ sid := "s2", index := 1, text := "beta", embedding := [-1] },
           by simp [dot]⟩] ∧
      (vectorRetrieve [1] 1
          [⟨{ sid := "s1", index := 0, text := "alpha", embedding := [1] },
             by simp [dot]⟩,
           ⟨{ sid := "s2", index := 1, text := "beta", embedding := [-1] },
             by simp [dot]⟩]).length =
        min 1 ([⟨{ sid := "s1", index := 0, text := "alpha",
                    embedding := [1] }, by simp [dot]⟩,
                ⟨{ sid := "s2", index := 1, text := "beta",
                    embedding := [-1] }, by simp [dot]⟩] : List VSeg).length ∧
      (vectorRetrieve [1] 1
          [⟨{ sid := "s1", index := 0, text := "alpha", embedding := [1] },
             by simp [dot]⟩,
           ⟨{ sid := "s2", index := 1, text := "beta", embedding := [-1] },
             by simp [dot]⟩]).Pairwise (fun a b =>
        cosineSim [1] b.1.embedding < cosineSim [1] a.1.embedding ∨
        (cosineSim [1] a.1.embedding = cosineSim [1] b.1.embedding ∧
          a.1.index ≤ b.1.index)) ∧
      (∀ a ∈ vectorRetrieve [1] 1
          [⟨{ sid := "s1", index := 0, text := "alpha", embedding := [1] },
             by simp [dot]⟩,
           ⟨{ sid := "s2", index := 1, text := "beta", embedding := [-1] },
             by simp [dot]⟩], ∀ s ∈ rest,
        cosineSim [1] s.1.embedding < cosineSim [1] a.1.embedding ∨
        (cosineSim [1] a.1.embedding = cosineSim [1] s.1.embedding ∧
          a.1.index ≤ s.1.index))) :=
  ⟨by simp [dot],
   c6_vector_topk [1] 1
     [⟨{ sid := "s1", index := 0, text := "alpha", embedding := [1] },
        by simp [dot]⟩,
      ⟨{ sid := "s2", index := 1, text := "beta", embedding := [-1] },
        by simp [dot]⟩] (by simp [dot])⟩

end GraphRag
